import Mathlib

/-!
Verification of the project-summarization core of `dockerfile-generator.py`.

The development shallowly embeds the two core functions of the script —
`analyze_project_dependencies` (per-file dependency extraction) and
`summarize_project_structure` (directory traversal and summary rendering) —
together with the Python string primitives they rely on
(`str.splitlines`, `str.split`, `str.strip`, `str.startswith`,
`pathlib.PurePath.suffix`) and executable models of the two standard-library
parsers the script calls (`json.loads` and `xml.etree.ElementTree.fromstring`).

Python exceptions that the script can raise (IndexError from `split()[1]`,
KeyError from `attrib['Include']`, AttributeError from `.get`/`.keys` on a
non-dict) are represented in an `Except` monad; a caught exception never
appears in a result.  Filesystem state is an explicit tree of entries, and a
file whose read raises inside `read_file_content` is represented by a
`readError` payload.
-/

/-- Python exception classes that `analyze_project_dependencies` can let
escape (everything the `try` blocks do not catch). -/
inductive PyErr where
  | indexError
  | keyError (key : String)
  | attributeError (attr : String)
deriving DecidableEq, Repr

/-- Character used for double quotes (code point 34). -/
def dquoteChar : Char := Char.ofNat 34

/-- Character used for single quotes (code point 39). -/
def squoteChar : Char := Char.ofNat 39

/-- Opening curly bracket character (code point 123). -/
def obraceChar : Char := Char.ofNat 123

/-- Closing curly bracket character (code point 125). -/
def cbraceChar : Char := Char.ofNat 125

/-- Whitespace characters recognised by Python's no-argument `str.split`
(the ASCII ones; the script's inputs are text lines, so the exotic Unicode
spaces are left out of the model). -/
def pyIsSpace (c : Char) : Bool :=
  c = ' ' || c = '\t' || c = '\n' || c = '\r' || c = Char.ofNat 11 || c = Char.ofNat 12

/-- Line-break code points recognised by Python's `str.splitlines`. -/
def pyIsLineBreak (c : Char) : Bool :=
  c.toNat = 10 || c.toNat = 13 || c.toNat = 11 || c.toNat = 12 ||
  c.toNat = 28 || c.toNat = 29 || c.toNat = 30 || c.toNat = 133 ||
  c.toNat = 8232 || c.toNat = 8233

/-- Helper for `pySplitlines`: walk the characters accumulating the current
line (in reverse); `\r\n` counts as a single break, as in Python. -/
def splitLinesAux : List Char → List Char → List String
  | [], [] => []
  | [], cur => [String.mk cur.reverse]
  | '\r' :: '\n' :: cs, cur => String.mk cur.reverse :: splitLinesAux cs []
  | c :: cs, cur =>
    if pyIsLineBreak c then String.mk cur.reverse :: splitLinesAux cs []
    else splitLinesAux cs (c :: cur)

/-- Model of Python's `str.splitlines()`: split at line boundaries, no
trailing empty line for a trailing newline. -/
def pySplitlines (s : String) : List String := splitLinesAux s.data []

/-- Helper for `pySplit`: accumulate the current word (in reverse), emitting
it at each whitespace run. -/
def splitWordsAux : List Char → List Char → List String
  | [], [] => []
  | [], cur => [String.mk cur.reverse]
  | c :: cs, cur =>
    if pyIsSpace c then
      match cur with
      | [] => splitWordsAux cs []
      | _ => String.mk cur.reverse :: splitWordsAux cs []
    else splitWordsAux cs (c :: cur)

/-- Model of Python's no-argument `str.split()`: split on runs of
whitespace, discarding empty fields. -/
def pySplit (s : String) : List String := splitWordsAux s.data []

/-- Boolean test that `small` is a prefix of the character list `cs`. -/
def listStarts : List Char → List Char → Bool
  | [], _ => true
  | _ :: _, [] => false
  | p :: ps, c :: cs => p = c && listStarts ps cs

/-- Model of Python's `str.startswith(pat)`. -/
def pyStartswith (s pat : String) : Bool := listStarts pat.data s.data

/-- Model of Python's `str.strip(t)` for a one-character set `t`: remove
every leading and trailing occurrence of `t` (not just one pair). -/
def pyStripChar (s : String) (t : Char) : String :=
  String.mk (((s.data.dropWhile (fun c => c = t)).reverse.dropWhile (fun c => c = t)).reverse)

/-- Index of the last occurrence of `t` in `cs`, if any. -/
def lastIdxOf (cs : List Char) (t : Char) : Option Nat :=
  match cs with
  | [] => none
  | c :: rest =>
    match lastIdxOf rest t with
    | some i => some (i + 1)
    | none => if c = t then some 0 else none

/-- Model of `pathlib.PurePath.suffix` on a file name: the part of the name
from its last dot, provided that dot is neither the first nor the last
character (so `.csproj` and `name.` have empty suffix). -/
def pySuffix (name : String) : String :=
  match lastIdxOf name.data '.' with
  | some i => if 0 < i ∧ i + 1 < name.data.length then String.mk (name.data.drop i) else ""
  | none => ""

/-- JSON values as produced by `json.loads`; object fields keep insertion
order (= document order of first occurrence), matching Python dicts. -/
inductive Json where
  | null
  | bool (b : Bool)
  | num (raw : String)
  | str (s : String)
  | arr (elems : List Json)
  | obj (fields : List (String × Json))

/-- Insertion into a Python dict: replace in place when the key exists,
append otherwise. -/
def dictInsert (fields : List (String × Json)) (k : String) (v : Json) :
    List (String × Json) :=
  if fields.any (fun p => p.1 = k) then
    fields.map (fun p => if p.1 = k then (k, v) else p)
  else fields ++ [(k, v)]

/-- Lookup in a Python dict represented as an ordered association list. -/
def dictGet? (fields : List (String × Json)) (k : String) : Option Json :=
  (fields.find? (fun p => p.1 = k)).map (fun p => p.2)

/-- Model of Python's `data.get(k, default)`: dict lookup with default, or
an AttributeError when `data` is not a dict. -/
def pyDictGet (data : Json) (k : String) (default : Json) : Except PyErr Json :=
  match data with
  | .obj fields => .ok ((dictGet? fields k).getD default)
  | _ => .error (.attributeError "get")

/-- Model of Python's `list(m.keys())`: the keys of a dict in insertion
order, or an AttributeError when `m` is not a dict. -/
def pyDictKeys (m : Json) : Except PyErr (List String) :=
  match m with
  | .obj fields => .ok (fields.map (fun p => p.1))
  | _ => .error (.attributeError "keys")

/-- Whitespace skipped between JSON tokens (exactly the four characters the
JSON grammar allows). -/
def jsonWs (cs : List Char) : List Char :=
  cs.dropWhile (fun c => c = ' ' || c = '\t' || c = '\n' || c = '\r')

/-- Body of a JSON string after the opening quote; handles the single-
character escapes and rejects control characters, unknown escapes and
unterminated strings (a subset of `json.loads`, ample for manifest files). -/
def parseJStringBody : List Char → List Char → Option (String × List Char)
  | [], _ => none
  | c :: cs, acc =>
    if c = dquoteChar then some (String.mk acc.reverse, cs)
    else if c = '\\' then
      match cs with
      | [] => none
      | e :: cs' =>
        if e = dquoteChar then parseJStringBody cs' (dquoteChar :: acc)
        else if e = '\\' then parseJStringBody cs' ('\\' :: acc)
        else if e = '/' then parseJStringBody cs' ('/' :: acc)
        else if e = 'n' then parseJStringBody cs' ('\n' :: acc)
        else if e = 't' then parseJStringBody cs' ('\t' :: acc)
        else if e = 'r' then parseJStringBody cs' ('\r' :: acc)
        else if e = 'b' then parseJStringBody cs' (Char.ofNat 8 :: acc)
        else if e = 'f' then parseJStringBody cs' (Char.ofNat 12 :: acc)
        else none
    else if c.toNat < 32 then none
    else parseJStringBody cs (c :: acc)

/-- Digits taken greedily from the front of `cs`. -/
def takeDigits (cs : List Char) : List Char × List Char :=
  (cs.takeWhile (fun c => c.isDigit), cs.dropWhile (fun c => c.isDigit))

/-- Exponent part of a JSON number, if one starts at `cs`; returns the
consumed text and the rest. -/
def parseJExp (cs : List Char) : List Char × List Char :=
  match cs with
  | e :: rest =>
    if e = 'e' || e = 'E' then
      match rest with
      | s :: rest' =>
        if s = '+' || s = '-' then
          let (ds, r) := takeDigits rest'
          if ds = [] then (([] : List Char), cs) else (e :: s :: ds, r)
        else
          let (ds, r) := takeDigits rest
          if ds = [] then (([] : List Char), cs) else (e :: ds, r)
      | [] => (([] : List Char), cs)
    else (([] : List Char), cs)
  | [] => (([] : List Char), cs)

/-- JSON number parsed from the front of `cs`, kept as its raw text. -/
def parseJNum (cs : List Char) : Option (Json × List Char) :=
  let (sign, cs1) :=
    match cs with
    | '-' :: rest => (['-'], rest)
    | _ => (([] : List Char), cs)
  let (intPart, cs2) := takeDigits cs1
  if intPart = [] then none
  else
    match cs2 with
    | '.' :: rest =>
      let (ds, r) := takeDigits rest
      if ds = [] then none
      else
        let (expPart, r2) := parseJExp r
        some (.num (String.mk (sign ++ intPart ++ '.' :: ds ++ expPart)), r2)
    | _ =>
      let (expPart, r2) := parseJExp cs2
      some (.num (String.mk (sign ++ intPart ++ expPart)), r2)

mutual

/-- Fuel-indexed parser for one JSON value starting at `cs` (whitespace is
skipped first).  The fuel given by `json_loads` exceeds the input length, so
it never runs out on inputs the grammar accepts. -/
def parseJVal : Nat → List Char → Option (Json × List Char)
  | 0, _ => none
  | fuel + 1, cs =>
    match jsonWs cs with
    | [] => none
    | c :: rest =>
      if c = obraceChar then parseJObjFirst fuel (jsonWs rest)
      else if c = '[' then parseJArrFirst fuel (jsonWs rest)
      else if c = dquoteChar then
        match parseJStringBody rest [] with
        | some (s, r) => some (.str s, r)
        | none => none
      else
        match c :: rest with
        | 't' :: 'r' :: 'u' :: 'e' :: r => some (.bool true, r)
        | 'f' :: 'a' :: 'l' :: 's' :: 'e' :: r => some (.bool false, r)
        | 'n' :: 'u' :: 'l' :: 'l' :: r => some (.null, r)
        | cs2 => parseJNum cs2

/-- Object body directly after the opening brace (whitespace skipped):
either the closing brace or a first member. -/
def parseJObjFirst : Nat → List Char → Option (Json × List Char)
  | 0, _ => none
  | fuel + 1, cs =>
    match cs with
    | c :: rest =>
      if c = cbraceChar then some (.obj [], rest)
      else parseJObjMem fuel cs []
    | [] => none

/-- One object member (`"key" : value`) followed by a comma or the closing
brace; fields accumulate with Python-dict insertion. -/
def parseJObjMem : Nat → List Char → List (String × Json) → Option (Json × List Char)
  | 0, _, _ => none
  | fuel + 1, cs, acc =>
    match cs with
    | c :: rest =>
      if c = dquoteChar then
        match parseJStringBody rest [] with
        | some (key, r1) =>
          match jsonWs r1 with
          | ':' :: r2 =>
            match parseJVal fuel r2 with
            | some (v, r3) =>
              let acc2 := dictInsert acc key v
              match jsonWs r3 with
              | [] => none
              | sep :: r4 =>
                if sep = ',' then parseJObjMem fuel (jsonWs r4) acc2
                else if sep = cbraceChar then some (.obj acc2, r4)
                else none
            | none => none
          | _ => none
        | none => none
      else none
    | [] => none

/-- Array body directly after the opening bracket (whitespace skipped). -/
def parseJArrFirst : Nat → List Char → Option (Json × List Char)
  | 0, _ => none
  | fuel + 1, cs =>
    match cs with
    | ']' :: rest => some (.arr [], rest)
    | _ => parseJArrMem fuel cs []

/-- One array element followed by a comma or the closing bracket. -/
def parseJArrMem : Nat → List Char → List Json → Option (Json × List Char)
  | 0, _, _ => none
  | fuel + 1, cs, acc =>
    match parseJVal fuel cs with
    | some (v, r1) =>
      match jsonWs r1 with
      | ',' :: r2 => parseJArrMem fuel r2 (acc ++ [v])
      | ']' :: r2 => some (.arr (acc ++ [v]), r2)
      | _ => none
    | none => none

end

/-- Model of Python's `json.loads`: parse one JSON value and require the
rest of the input to be whitespace; `none` plays the role of
`json.JSONDecodeError`. -/
def json_loads (s : String) : Option Json :=
  match parseJVal (s.data.length + 16) s.data with
  | some (v, rest) => if jsonWs rest = [] then some v else none
  | none => none

/-- XML element as produced by `xml.etree.ElementTree.fromstring`: a tag, an
attribute dictionary and the child elements in document order (text content
is irrelevant to the script and is not kept). -/
inductive XmlElem where
  | elem (tag : String) (attrib : List (String × String)) (children : List XmlElem)

/-- Tag of an element. -/
def XmlElem.tag : XmlElem → String
  | .elem t _ _ => t

/-- Attribute dictionary of an element. -/
def XmlElem.attrib : XmlElem → List (String × String)
  | .elem _ a _ => a

/-- Child elements of an element. -/
def XmlElem.children : XmlElem → List XmlElem
  | .elem _ _ cs => cs

mutual

/-- Proper descendants of an element in document (pre-)order; the element
itself is not included, matching the ElementPath descendant axis. -/
def xmlDescendants : XmlElem → List XmlElem
  | .elem _ _ cs => xmlDescList cs

/-- Descendants-or-self of each element of a list, in document order. -/
def xmlDescList : List XmlElem → List XmlElem
  | [] => []
  | c :: cs => c :: (xmlDescendants c ++ xmlDescList cs)

end

/-- Model of `ElementTree.findall(".//tag")`: every element strictly below
the root whose tag matches, in document order. -/
def et_findall_desc (root : XmlElem) (t : String) : List XmlElem :=
  (xmlDescendants root).filter (fun e => e.tag = t)

/-- Model of Python's `element.attrib[k]`: the attribute value, or a
KeyError when the attribute is absent. -/
def pyAttribGet (e : XmlElem) (k : String) : Except PyErr String :=
  match (e.attrib.find? (fun p => p.1 = k)) with
  | some p => .ok p.2
  | none => .error (.keyError k)

/-- Whitespace skipped between XML tokens. -/
def xmlDropWs (cs : List Char) : List Char :=
  cs.dropWhile (fun c => c = ' ' || c = '\t' || c = '\n' || c = '\r')

/-- Characters allowed in the XML names this model accepts. -/
def xmlNameChar (c : Char) : Bool :=
  c.isAlphanum || c = '_' || c = '-' || c = '.' || c = ':'

/-- Leading XML name of `cs` together with the rest. -/
def spanName (cs : List Char) : List Char × List Char :=
  (cs.takeWhile xmlNameChar, cs.dropWhile xmlNameChar)

mutual

/-- Fuel-indexed parser for one XML element starting at `<`.  It accepts
tags with attributes, self-closing tags and nested children with text
skipped — a subset of expat sufficient for `.csproj` project files — and
rejects everything else (playing the role of `xml.etree.ElementTree.ParseError`). -/
def parseXElem : Nat → List Char → Option (XmlElem × List Char)
  | 0, _ => none
  | fuel + 1, cs =>
    match cs with
    | '<' :: rest =>
      let (nm, r1) := spanName rest
      if nm = [] then none
      else
        match parseXAttrs fuel (xmlDropWs r1) [] with
        | some (attrs, r2) =>
          match r2 with
          | '/' :: '>' :: r3 => some (.elem (String.mk nm) attrs [], r3)
          | '>' :: r3 =>
            match parseXContent fuel r3 [] with
            | some (children, closeNm, r4) =>
              if closeNm = String.mk nm then
                some (.elem (String.mk nm) attrs children, r4)
              else none
            | none => none
          | _ => none
        | none => none
    | _ => none

/-- Attribute list of a tag: `name="value"` pairs up to the `/` or `>` that
ends the tag (entity references in values are not decoded). -/
def parseXAttrs : Nat → List Char → List (String × String) →
    Option (List (String × String) × List Char)
  | 0, _, _ => none
  | fuel + 1, cs, acc =>
    match cs with
    | '/' :: _ => some (acc, cs)
    | '>' :: _ => some (acc, cs)
    | _ =>
      let (nm, r1) := spanName cs
      if nm = [] then none
      else
        match xmlDropWs r1 with
        | '=' :: r2 =>
          match xmlDropWs r2 with
          | q :: r3 =>
            if q = dquoteChar ∨ q = squoteChar then
              let (v, r4) := (r3.takeWhile (fun c => c ≠ q), r3.dropWhile (fun c => c ≠ q))
              match r4 with
              | _ :: r5 =>
                parseXAttrs fuel (xmlDropWs r5) (acc ++ [(String.mk nm, String.mk v)])
              | [] => none
            else none
          | [] => none
        | _ => none

/-- Content of an element: text runs are skipped, child elements parsed,
until the matching close tag, whose name is returned for the caller to
check. -/
def parseXContent : Nat → List Char → List XmlElem →
    Option (List XmlElem × String × List Char)
  | 0, _, _ => none
  | fuel + 1, cs, acc =>
    match cs.dropWhile (fun c => c ≠ '<') with
    | '<' :: '/' :: r1 =>
      let (nm, r2) := spanName r1
      match xmlDropWs r2 with
      | '>' :: r3 => some (acc, String.mk nm, r3)
      | _ => none
    | '<' :: r1 =>
      match parseXElem fuel ('<' :: r1) with
      | some (child, r2) => parseXContent fuel r2 (acc ++ [child])
      | none => none
    | _ => none

end

/-- Model of `xml.etree.ElementTree.fromstring`: parse a single root
element with only whitespace around it; `none` plays the role of
`ET.ParseError`. -/
def et_fromstring (s : String) : Option XmlElem :=
  match parseXElem (s.data.length + 16) (xmlDropWs s.data) with
  | some (root, rest) => if xmlDropWs rest = [] then some root else none
  | none => none

/-- Outcome of opening and reading a file on disk: either its text content,
or the message of the exception the read raised (permission denied,
I/O error, undecodable bytes). -/
inductive ReadOutcome where
  | content (s : String)
  | readError (msg : String)

/-- Model of `read_file_content` (src/dockerfile-generator.py:20-29): return
the file's text, or `None` after catching any read exception (the script
also prints a diagnostic line, which has no bearing on the result). -/
def read_file_content : ReadOutcome → Option String
  | .content s => some s
  | .readError _ => none

/-- Loop body of the Gemfile branch (src/dockerfile-generator.py:49-52):
for each line starting with the three characters `gem`, take the second
whitespace-separated token — an IndexError escapes when there is none — and
strip double then single quotes from both ends. -/
def gemLines : List String → Except PyErr (List String)
  | [] => .ok []
  | line :: rest =>
    if pyStartswith line "gem" then
      match (pySplit line)[1]? with
      | none => .error .indexError
      | some tok =>
        match gemLines rest with
        | .ok deps => .ok (pyStripChar (pyStripChar tok dquoteChar) squoteChar :: deps)
        | .error e => .error e
    else gemLines rest

/-- List comprehension of the `.csproj` branch
(src/dockerfile-generator.py:67): `element.attrib['Include']` for each
element, letting the KeyError escape when the attribute is missing. -/
def collectIncludes : List XmlElem → Except PyErr (List String)
  | [] => .ok []
  | e :: es =>
    match pyAttribGet e "Include" with
    | .ok v =>
      match collectIncludes es with
      | .ok vs => .ok (v :: vs)
      | .error err => .error err
    | .error err => .error err

/-- Model of `analyze_project_dependencies`
(src/dockerfile-generator.py:31-71).  Dispatch is on the file name
(`package.json`, `Gemfile`, `requirements.txt`/`Pipfile`) and then on the
pathlib suffix `.csproj`; a file whose read failed, or whose content is
empty, falls through every `if content:` guard to the final `return ""`.
Only `json.JSONDecodeError` and `ET.ParseError` are caught; IndexError,
KeyError and AttributeError escape as `.error`. -/
def analyze_project_dependencies (name : String) (stored : ReadOutcome) :
    Except PyErr String :=
  if name = "package.json" then
    match read_file_content stored with
    | some content =>
      if content.isEmpty then .ok ""
      else
        match json_loads content with
        | some data =>
          match pyDictGet data "dependencies" (.obj []) with
          | .ok deps =>
            match pyDictKeys deps with
            | .ok dependencies =>
              .ok ("Node.js dependencies: " ++ String.intercalate ", " dependencies ++ ".")
            | .error e => .error e
          | .error e => .error e
        | none => .ok "Error analyzing package.json."
    | none => .ok ""
  else if name = "Gemfile" then
    match read_file_content stored with
    | some content =>
      if content.isEmpty then .ok ""
      else
        match gemLines (pySplitlines content) with
        | .ok dependencies =>
          .ok ("Ruby dependencies (Gemfile): " ++ String.intercalate ", " dependencies ++ ".")
        | .error e => .error e
    | none => .ok ""
  else if name = "requirements.txt" ∨ name = "Pipfile" then
    match read_file_content stored with
    | some content =>
      if content.isEmpty then .ok ""
      else
        let dependencies :=
          (pySplitlines content).filter (fun line => !line.isEmpty && !(pyStartswith line "#"))
        let python_deps_desc :=
          if name = "Pipfile" then "Python dependencies (Pipfile)"
          else "Python dependencies (requirements.txt)"
        .ok (python_deps_desc ++ ": " ++ String.intercalate ", " dependencies ++ ".")
    | none => .ok ""
  else if pySuffix name = ".csproj" then
    match read_file_content stored with
    | some content =>
      if content.isEmpty then .ok ""
      else
        match et_fromstring content with
        | some root =>
          match collectIncludes (et_findall_desc root "PackageReference") with
          | .ok packages =>
            .ok ("C# dependencies: " ++ String.intercalate ", " packages ++ ".")
          | .error e => .error e
        | none => .ok "Error analyzing .csproj."
    | none => .ok ""
  else .ok ""

/-- Filesystem entry: a regular file (with the outcome its read would have)
or a directory with its children listed in `os.scandir` order. -/
inductive FSEntry where
  | file (name : String) (stored : ReadOutcome)
  | dir (name : String) (children : List FSEntry)

/-- Name of an entry. -/
def entryName : FSEntry → String
  | .file n _ => n
  | .dir n _ => n

/-- Test that an entry is a directory (the negation of `path.is_file()` in
a tree of regular files and directories). -/
def isDirEntry : FSEntry → Bool
  | .file _ _ => false
  | .dir _ _ => true

mutual

/-- Directories of the subtree rooted at entry `e` (whose parent has
relative path `p`), each paired with its child list, in the pre-order that
`pathlib`'s recursive glob uses to expand `**`. -/
def iterDirs (p : List String) (e : FSEntry) : List (List String × List FSEntry) :=
  match e with
  | .file _ _ => []
  | .dir n cs => (p ++ [n], cs) :: iterDirsList (p ++ [n]) cs

/-- Directories of the subtrees of `es` in order. -/
def iterDirsList (p : List String) (es : List FSEntry) : List (List String × List FSEntry) :=
  match es with
  | [] => []
  | c :: cs => iterDirs p c ++ iterDirsList p cs

end

/-- Entry `c` of the directory at relative path `p`, as yielded by
`rglob('*')`: its relative path paired with the entry. -/
def childEntry (p : List String) (c : FSEntry) : List String × FSEntry :=
  (p ++ [entryName c], c)

/-- Concatenation of `f` over a list (kept as an explicit recursion so that
every lemma about the traversal can unfold it). -/
def concatMap (f : α → List β) : List α → List β
  | [] => []
  | x :: xs => f x ++ concatMap f xs

/-- Model of `pathlib.Path(directory).rglob('*')`
(src/dockerfile-generator.py:81): every entry below the root with its path
relative to the root, listed directory by directory with the directories in
pre-order.  A root that does not exist or is not a directory yields nothing
(pathlib's selector starts with an `is_dir` check and returns an empty
iterator), so `none` models a nonexistent root path. -/
def projectEntries (root : Option FSEntry) : List (List String × FSEntry) :=
  match root with
  | some (.dir _ cs) => concatMap (fun pc => pc.2.map (childEntry pc.1)) (([], cs) :: iterDirsList [] cs)
  | _ => []

/-- Rendering of a relative path as `str()` shows it: components joined
with `/`, and `.` for the empty path. -/
def pathStr : List String → String
  | [] => "."
  | c :: cs => String.intercalate "/" (c :: cs)

/-- Loop of `summarize_project_structure` (src/dockerfile-generator.py:81-88)
over the traversal: analyze each regular file, appending non-empty results;
for every other entry record `str(relative_path.parent)` — the parent of the
entry's relative path, not the entry itself.  An exception escaping
`analyze_project_dependencies` aborts the loop. -/
def summarizeEntries : List (List String × FSEntry) →
    Except PyErr (List String × List String)
  | [] => .ok ([], [])
  | (_, .file n stored) :: rest =>
    match analyze_project_dependencies n stored with
    | .error e => .error e
    | .ok r =>
      match summarizeEntries rest with
      | .error e => .error e
      | .ok (deps, dirs) => .ok ((if r.isEmpty then deps else r :: deps), dirs)
  | (p, .dir _ _) :: rest =>
    match summarizeEntries rest with
    | .error e => .error e
    | .ok (deps, dirs) => .ok (deps, pathStr p.dropLast :: dirs)

/-- Comparison used by Python's `sorted` on strings: the lexicographic
code-point order (here decided on the underlying character lists, which
coincides with the order on `String`). -/
def pyStrLe (a b : String) : Bool := decide (a.data ≤ b.data)

/-- Insertion into a sorted list of strings. -/
def insertSorted (x : String) : List String → List String
  | [] => [x]
  | y :: ys => if pyStrLe x y then x :: y :: ys else y :: insertSorted x ys

/-- Model of Python's `sorted` on a list of strings (insertion sort; on the
deduplicated lists it is applied to, every correct sort returns the same
list). -/
def sortStrings : List String → List String
  | [] => []
  | x :: xs => insertSorted x (sortStrings xs)

/-- Rendering step of `summarize_project_structure`
(src/dockerfile-generator.py:90-93): the directory set sorted as strings
(Python's `sorted(set(...))` is the deduplicated list sorted under the
code-point order) joined with newlines, and the dependency fragments joined
with single spaces. -/
def renderSummary (deps dirs : List String) : String :=
  "Detected directories:\n" ++
    String.intercalate "\n" (sortStrings dirs.dedup) ++
    "\n\nDependencies info: " ++ String.intercalate " " deps

/-- Model of `summarize_project_structure` (src/dockerfile-generator.py:73-95):
traverse, accumulate, render; an uncaught exception from dependency
extraction escapes to the caller. -/
def summarize_project_structure (root : Option FSEntry) : Except PyErr String :=
  match summarizeEntries (projectEntries root) with
  | .ok (deps, dirs) => .ok (renderSummary deps dirs)
  | .error e => .error e

/-- Auxiliary predicate: an `Except` value that is a success. -/
def exceptOk {α : Type} : Except PyErr α → Bool
  | .ok _ => true
  | .error _ => false

/-- Relative parent paths of the directory entries of a traversal, in
traversal order (with duplicates) — the strings the summarizer's set
receives. -/
def dirParents (es : List (List String × FSEntry)) : List String :=
  es.filterMap (fun pe => if isDirEntry pe.2 then some (pathStr pe.1.dropLast) else none)

theorem pyStrLe_iff (a b : String) : pyStrLe a b = true ↔ a ≤ b := by
  rw [pyStrLe, decide_eq_true_iff]
  exact String.le_iff_toList_le.symm

theorem mem_insertSorted (a x : String) : ∀ l : List String,
    a ∈ insertSorted x l ↔ a = x ∨ a ∈ l
  | [] => by simp [insertSorted]
  | y :: ys => by
    by_cases h : pyStrLe x y = true
    · simp only [insertSorted, if_pos h, List.mem_cons]
    · simp only [insertSorted, if_neg h, List.mem_cons, mem_insertSorted a x ys]
      tauto

theorem sorted_insertSorted (x : String) : ∀ l : List String,
    l.Sorted (· ≤ ·) → (insertSorted x l).Sorted (· ≤ ·)
  | [], _ => by simp [insertSorted]
  | y :: ys, h => by
    rw [List.sorted_cons] at h
    obtain ⟨hy, hys⟩ := h
    by_cases hxy : pyStrLe x y = true
    · rw [insertSorted, if_pos hxy, List.sorted_cons]
      refine ⟨?_, ?_⟩
      · intro b hb
        rcases List.mem_cons.mp hb with rfl | hb
        · exact (pyStrLe_iff x b).mp hxy
        · exact le_trans ((pyStrLe_iff x y).mp hxy) (hy b hb)
      · rw [List.sorted_cons]
        exact ⟨hy, hys⟩
    · rw [insertSorted, if_neg hxy, List.sorted_cons]
      refine ⟨?_, sorted_insertSorted x ys hys⟩
      intro b hb
      rcases (mem_insertSorted b x ys).mp hb with rfl | hb
      · exact le_of_not_le (fun hle => hxy ((pyStrLe_iff b y).mpr hle))
      · exact hy b hb

theorem insertSorted_perm (x : String) : ∀ l : List String,
    List.Perm (insertSorted x l) (x :: l)
  | [] => by simp [insertSorted]
  | y :: ys => by
    by_cases h : pyStrLe x y = true
    · simp [insertSorted, h]
    · rw [insertSorted, if_neg h]
      exact ((insertSorted_perm x ys).cons y).trans (List.Perm.swap x y ys)

theorem sortStrings_perm : ∀ l : List String, List.Perm (sortStrings l) l
  | [] => by simp [sortStrings]
  | x :: xs =>
    (insertSorted_perm x (sortStrings xs)).trans ((sortStrings_perm xs).cons x)

theorem sorted_sortStrings : ∀ l : List String, (sortStrings l).Sorted (· ≤ ·)
  | [] => by simp [sortStrings]
  | x :: xs => sorted_insertSorted x (sortStrings xs) (sorted_sortStrings xs)

theorem mem_dirParents (d : String) (es : List (List String × FSEntry)) :
    d ∈ dirParents es ↔
      ∃ pe ∈ es, isDirEntry pe.2 = true ∧ d = pathStr pe.1.dropLast := by
  simp only [dirParents, List.mem_filterMap]
  constructor
  · rintro ⟨pe, hmem, hf⟩
    by_cases hd : isDirEntry pe.2 = true
    · rw [if_pos hd] at hf
      exact ⟨pe, hmem, hd, (Option.some_inj.mp hf).symm⟩
    · rw [if_neg hd] at hf
      exact absurd hf (Option.noConfusion)
  · rintro ⟨pe, hmem, hd, rfl⟩
    exact ⟨pe, hmem, by rw [if_pos hd]⟩

theorem summarizeEntries_ok_dirs : ∀ (es : List (List String × FSEntry))
    (deps dirs : List String), summarizeEntries es = .ok (deps, dirs) →
    dirs = dirParents es
  | [], deps, dirs, h => by
    simp only [summarizeEntries, Except.ok.injEq, Prod.mk.injEq] at h
    simp [dirParents, ← h.2]
  | (p, .file n stored) :: rest, deps, dirs, h => by
    rw [summarizeEntries] at h
    cases ha : analyze_project_dependencies n stored with
    | error e => rw [ha] at h; exact absurd h (by simp)
    | ok r =>
      rw [ha] at h
      cases hr : summarizeEntries rest with
      | error e => rw [hr] at h; exact absurd h (by simp)
      | ok pair =>
        obtain ⟨d, g⟩ := pair
        rw [hr] at h
        simp only [Except.ok.injEq, Prod.mk.injEq] at h
        have := summarizeEntries_ok_dirs rest d g hr
        simp [dirParents, isDirEntry, ← h.2, this]
  | (p, .dir n cs) :: rest, deps, dirs, h => by
    rw [summarizeEntries] at h
    cases hr : summarizeEntries rest with
    | error e => rw [hr] at h; exact absurd h (by simp)
    | ok pair =>
      obtain ⟨d, g⟩ := pair
      rw [hr] at h
      simp only [Except.ok.injEq, Prod.mk.injEq] at h
      have := summarizeEntries_ok_dirs rest d g hr
      simp [dirParents, isDirEntry, ← h.2, this]

/-- Success test for one traversal entry: a file whose analysis does not
raise, or any directory. -/
def entryOk : (List String × FSEntry) → Bool
  | (_, .file n stored) => exceptOk (analyze_project_dependencies n stored)
  | (_, .dir _ _) => true

theorem summarizeEntries_isOk : ∀ es : List (List String × FSEntry),
    (∀ pe ∈ es, entryOk pe = true) → exceptOk (summarizeEntries es) = true
  | [], _ => rfl
  | (p, .file n stored) :: rest, h => by
    rw [summarizeEntries]
    have hhead : exceptOk (analyze_project_dependencies n stored) = true :=
      h (p, .file n stored) (List.mem_cons_self _ _)
    cases ha : analyze_project_dependencies n stored with
    | error e => rw [ha] at hhead; exact absurd hhead (by simp [exceptOk])
    | ok r =>
      have htail := summarizeEntries_isOk rest (fun pe hpe => h pe (List.mem_cons_of_mem _ hpe))
      cases hr : summarizeEntries rest with
      | error e => rw [hr] at htail; exact absurd htail (by simp [exceptOk])
      | ok pair => obtain ⟨d, g⟩ := pair; simp [exceptOk]
  | (p, .dir n cs) :: rest, h => by
    rw [summarizeEntries]
    have htail := summarizeEntries_isOk rest (fun pe hpe => h pe (List.mem_cons_of_mem _ hpe))
    cases hr : summarizeEntries rest with
    | error e => rw [hr] at htail; exact absurd htail (by simp [exceptOk])
    | ok pair => obtain ⟨d, g⟩ := pair; simp [exceptOk]

theorem gemLines_ok_iff : ∀ ls : List String,
    exceptOk (gemLines ls) = true ↔
      ∀ l ∈ ls, pyStartswith l "gem" = true → 2 ≤ (pySplit l).length
  | [] => by simp [gemLines, exceptOk]
  | line :: rest => by
    by_cases h : pyStartswith line "gem" = true
    · rw [gemLines, if_pos h]
      cases htok : (pySplit line)[1]? with
      | none =>
        have hlen : (pySplit line).length ≤ 1 := List.getElem?_eq_none_iff.mp htok
        simp only [exceptOk]
        constructor
        · intro hfalse; exact absurd hfalse (by simp)
        · intro hall
          have := hall line (List.mem_cons_self _ _) h
          omega
      | some tok =>
        have hlen : 1 < (pySplit line).length := by
          by_contra hc
          rw [List.getElem?_eq_none_iff.mpr (by omega)] at htok
          exact Option.noConfusion htok
        have hstep : exceptOk (match gemLines rest with
            | .ok deps => .ok (pyStripChar (pyStripChar tok dquoteChar) squoteChar :: deps)
            | .error e => (.error e : Except PyErr (List String))) =
            exceptOk (gemLines rest) := by
          cases gemLines rest with
          | ok deps => rfl
          | error e => rfl
        rw [hstep, gemLines_ok_iff rest]
        constructor
        · intro hall l hl hstart
          rcases List.mem_cons.mp hl with rfl | hl
          · omega
          · exact hall l hl hstart
        · intro hall l hl hstart
          exact hall l (List.mem_cons_of_mem _ hl) hstart
    · rw [gemLines, if_neg h, gemLines_ok_iff rest]
      constructor
      · intro hall l hl hstart
        rcases List.mem_cons.mp hl with rfl | hl
        · exact absurd hstart h
        · exact hall l hl hstart
      · intro hall l hl hstart
        exact hall l (List.mem_cons_of_mem _ hl) hstart

theorem gemLines_eq : ∀ ls : List String,
    (∀ l ∈ ls, pyStartswith l "gem" = true → 2 ≤ (pySplit l).length) →
    gemLines ls = .ok ((ls.filter (fun l => pyStartswith l "gem")).map
      (fun l => pyStripChar (pyStripChar (((pySplit l)[1]?).getD "") dquoteChar) squoteChar))
  | [], _ => rfl
  | line :: rest, h => by
    have htail := gemLines_eq rest (fun l hl => h l (List.mem_cons_of_mem _ hl))
    by_cases hs : pyStartswith line "gem" = true
    · rw [gemLines, if_pos hs]
      cases htok : (pySplit line)[1]? with
      | none =>
        have hlen := h line (List.mem_cons_self _ _) hs
        have : (pySplit line).length ≤ 1 := List.getElem?_eq_none_iff.mp htok
        omega
      | some tok =>
        rw [htail]
        simp [List.filter_cons, hs, htok]
    · rw [gemLines, if_neg hs, htail]
      simp [List.filter_cons, hs]

theorem collectIncludes_error : ∀ es : List XmlElem,
    (∃ e ∈ es, (e.attrib.find? (fun p => p.1 = "Include")) = none) →
    collectIncludes es = .error (.keyError "Include")
  | [], h => by simp at h
  | e :: es, h => by
    rw [collectIncludes]
    cases hf : e.attrib.find? (fun p => p.1 = "Include") with
    | none => rw [pyAttribGet, hf]
    | some p =>
      rw [pyAttribGet, hf]
      have : ∃ e ∈ es, (e.attrib.find? (fun q => q.1 = "Include")) = none := by
        rcases h with ⟨e', he', hnone⟩
        rcases List.mem_cons.mp he' with rfl | he'
        · rw [hf] at hnone; exact Option.noConfusion hnone
        · exact ⟨e', he', hnone⟩
      rw [collectIncludes_error es this]

theorem projectEntries_cons_file (rn n : String) (stored : ReadOutcome)
    (rest : List FSEntry) :
    projectEntries (some (.dir rn (.file n stored :: rest))) =
      ([n], .file n stored) :: projectEntries (some (.dir rn rest)) := by
  simp [projectEntries, iterDirsList, iterDirs, concatMap, childEntry, entryName]

theorem isEmpty_false_of_ne (c : String) (hc : c ≠ "") : c.isEmpty = false := by
  by_contra h
  rw [Bool.not_eq_false] at h
  exact hc ((String.isEmpty_iff c).mp h)

theorem analyze_package_json_eq (c : String) (hc : c ≠ "") :
    analyze_project_dependencies "package.json" (.content c) =
      match json_loads c with
      | some data =>
        (match pyDictGet data "dependencies" (.obj []) with
         | .ok deps =>
           (match pyDictKeys deps with
            | .ok dependencies =>
              .ok ("Node.js dependencies: " ++ String.intercalate ", " dependencies ++ ".")
            | .error e => .error e)
         | .error e => .error e)
      | none => .ok "Error analyzing package.json." := by
  have h := isEmpty_false_of_ne c hc
  simp [analyze_project_dependencies, read_file_content, h]

theorem analyze_gemfile_eq (c : String) (hc : c ≠ "") :
    analyze_project_dependencies "Gemfile" (.content c) =
      match gemLines (pySplitlines c) with
      | .ok dependencies =>
        .ok ("Ruby dependencies (Gemfile): " ++ String.intercalate ", " dependencies ++ ".")
      | .error e => .error e := by
  have h := isEmpty_false_of_ne c hc
  simp [analyze_project_dependencies, read_file_content, h]

theorem analyze_csproj_eq (name c : String) (hn : pySuffix name = ".csproj")
    (hc : c ≠ "") :
    analyze_project_dependencies name (.content c) =
      match et_fromstring c with
      | some root =>
        (match collectIncludes (et_findall_desc root "PackageReference") with
         | .ok packages =>
           .ok ("C# dependencies: " ++ String.intercalate ", " packages ++ ".")
         | .error e => .error e)
      | none => .ok "Error analyzing .csproj." := by
  have hemp := isEmpty_false_of_ne c hc
  have h1 : ¬ name = "package.json" := fun he => by subst he; exact absurd hn (by decide)
  have h2 : ¬ name = "Gemfile" := fun he => by subst he; exact absurd hn (by decide)
  have h3 : ¬ (name = "requirements.txt" ∨ name = "Pipfile") := by
    rintro (he | he) <;> (subst he; exact absurd hn (by decide))
  simp [analyze_project_dependencies, read_file_content, h1, h2, h3, hn, hemp]

/-- Claim C1: whenever `summarize_project_structure` returns a summary for a
directory tree, the rendered "Detected directories:" block is a strictly
sorted list of strings joined with newlines — so each string appears
exactly once, in lexicographic order — and a string appears in it exactly
when it is the parent of the root-relative path of some directory entry
encountered by the traversal (the parent, not the directory itself); the
rest of the text is the blank-line-separated "Dependencies info:" line. -/
theorem C1_directory_block (root : FSEntry) (s : String)
    (h : summarize_project_structure (some root) = .ok s) :
    ∃ ds depsInfo,
      s = "Detected directories:\n" ++ String.intercalate "\n" ds ++
        "\n\nDependencies info: " ++ depsInfo ∧
      ds.Sorted (· < ·) ∧
      ∀ d, d ∈ ds ↔ ∃ pe ∈ projectEntries (some root),
        isDirEntry pe.2 = true ∧ d = pathStr pe.1.dropLast := by
  rw [summarize_project_structure] at h
  cases he : summarizeEntries (projectEntries (some root)) with
  | error e => rw [he] at h; exact absurd h (by simp)
  | ok pair =>
    obtain ⟨deps, dirs⟩ := pair
    rw [he] at h
    simp only [Except.ok.injEq] at h
    refine ⟨sortStrings dirs.dedup, String.intercalate " " deps, ?_, ?_, ?_⟩
    · rw [← h]; rfl
    · exact List.Sorted.lt_of_le (sorted_sortStrings _)
        (((sortStrings_perm _).nodup_iff).mpr (List.nodup_dedup dirs))
    · intro d
      rw [(sortStrings_perm dirs.dedup).mem_iff, List.mem_dedup,
        summarizeEntries_ok_dirs _ _ _ he, mem_dirParents]

/-- Concrete tree for the C1 witness: two nested directories and a file. -/
def c1Tree : FSEntry :=
  .dir "proj" [.dir "src" [.dir "sub" []], .file "README" (.content "hi")]

/-- Witness for C1: on `c1Tree` the summary succeeds (its block lists `.`
and `src` — the parents of the three entries' relative paths) and the
characterization holds. -/
theorem C1_directory_block_witness :
    summarize_project_structure (some c1Tree) =
      .ok "Detected directories:\n.\nsrc\n\nDependencies info: " ∧
    ∃ ds depsInfo,
      "Detected directories:\n.\nsrc\n\nDependencies info: " =
        "Detected directories:\n" ++ String.intercalate "\n" ds ++
        "\n\nDependencies info: " ++ depsInfo ∧
      ds.Sorted (· < ·) ∧
      ∀ d, d ∈ ds ↔ ∃ pe ∈ projectEntries (some c1Tree),
        isDirEntry pe.2 = true ∧ d = pathStr pe.1.dropLast :=
  ⟨rfl, C1_directory_block c1Tree _ rfl⟩

/-- Claim C2 counterexample: for a nonexistent root the code returns the silently
empty summary (pathlib's glob yields nothing, no `FileNotFoundError`-class
signal), and for an existing readable root containing a Gemfile whose only
line is `gem` the summarization fails with an uncaught IndexError — so
neither half of the claim holds as stated. -/
theorem C2_counterexample :
    summarize_project_structure none =
      .ok "Detected directories:\n\n\nDependencies info: " ∧
    summarize_project_structure
        (some (.dir "proj" [.file "Gemfile" (.content "gem")])) =
      .error .indexError :=
  ⟨rfl, rfl⟩

/-- Claim C2 (amended): a root that does not exist (or is not a directory) makes
`summarize_project_structure` return — without signalling any error — the
empty summary; an existing readable root summarizes successfully provided
dependency extraction raises no exception on any traversed file. -/
theorem C2_nonexistent_root_amended :
    (∀ root : Option FSEntry,
      (root = none ∨ ∃ n stored, root = some (.file n stored)) →
      summarize_project_structure root =
        .ok "Detected directories:\n\n\nDependencies info: ") ∧
    (∀ t : FSEntry, (∀ pe ∈ projectEntries (some t), entryOk pe = true) →
      exceptOk (summarize_project_structure (some t)) = true) := by
  constructor
  · rintro root (rfl | ⟨n, stored, rfl⟩) <;> rfl
  · intro t h
    have := summarizeEntries_isOk _ h
    rw [summarize_project_structure]
    cases hr : summarizeEntries (projectEntries (some t)) with
    | error e => rw [hr] at this; exact absurd this (by simp [exceptOk])
    | ok pair => obtain ⟨d, g⟩ := pair; rfl

/-- Concrete tree for the C2 witness. -/
def c2Tree : FSEntry :=
  .dir "proj" [.file "requirements.txt" (.content "flask"), .dir "src" []]

/-- Witness for C2 (amended), instantiated at a nonexistent root and at a
small tree whose files all analyze successfully. -/
theorem C2_nonexistent_root_amended_witness :
    summarize_project_structure none =
      .ok "Detected directories:\n\n\nDependencies info: " ∧
    exceptOk (summarize_project_structure (some c2Tree)) = true :=
  ⟨C2_nonexistent_root_amended.1 none (Or.inl rfl),
   C2_nonexistent_root_amended.2 c2Tree (by decide)⟩

/-- Claim C9: a file whose read raised is treated as no content — extraction
returns the empty contribution for every file name without signalling any
error, and the summarization loop processes such a file as a no-op,
continuing with the remaining entries. -/
theorem C9_read_errors_absorbed :
    (∀ name msg, analyze_project_dependencies name (.readError msg) = .ok "") ∧
    (∀ (p : List String) name msg es,
      summarizeEntries ((p, .file name (.readError msg)) :: es) =
        summarizeEntries es) := by
  have part1 : ∀ name msg,
      analyze_project_dependencies name (.readError msg) = .ok "" := by
    intro name msg
    unfold analyze_project_dependencies
    split_ifs <;> rfl
  refine ⟨part1, ?_⟩
  intro p name msg es
  rw [summarizeEntries, part1]
  cases summarizeEntries es with
  | error e => rfl
  | ok pair => obtain ⟨d, g⟩ := pair; rfl

/-- Decomposition of the summarization loop over a split of the entry list:
the two halves contribute independently, their fragments and directory
records concatenated in order, and the first exception from the left wins. -/
theorem summarizeEntries_append : ∀ es1 es2 : List (List String × FSEntry),
    summarizeEntries (es1 ++ es2) =
      match summarizeEntries es1, summarizeEntries es2 with
      | .ok (d1, g1), .ok (d2, g2) => .ok (d1 ++ d2, g1 ++ g2)
      | .error e, _ => .error e
      | .ok _, .error e => .error e
  | [], es2 => by
    cases h2 : summarizeEntries es2 with
    | error e => simp [summarizeEntries, h2]
    | ok pair => obtain ⟨d2, g2⟩ := pair; simp [summarizeEntries, h2]
  | (p, .file n stored) :: t, es2 => by
    rw [List.cons_append, summarizeEntries, summarizeEntries]
    cases ha : analyze_project_dependencies n stored with
    | error e => rfl
    | ok r =>
      rw [summarizeEntries_append t es2]
      cases h1 : summarizeEntries t with
      | error e => rfl
      | ok pair1 =>
        obtain ⟨d1, g1⟩ := pair1
        cases h2 : summarizeEntries es2 with
        | error e => rfl
        | ok pair2 =>
          obtain ⟨d2, g2⟩ := pair2
          by_cases hr : r.isEmpty = true <;> simp [hr]
  | (p, .dir n cs) :: t, es2 => by
    rw [List.cons_append, summarizeEntries, summarizeEntries]
    rw [summarizeEntries_append t es2]
    cases h1 : summarizeEntries t with
    | error e => rfl
    | ok pair1 =>
      obtain ⟨d1, g1⟩ := pair1
      cases h2 : summarizeEntries es2 with
      | error e => rfl
      | ok pair2 => obtain ⟨d2, g2⟩ := pair2; simp

/-- Claim C3 counterexample: an empty `package.json` has content that is not
valid JSON (`json.loads("")` raises), yet the `if content:` guard makes the
code return the empty string, not the claimed fixed error string — the
claim fails at the empty file. -/
theorem C3_counterexample :
    json_loads "" = none ∧
    analyze_project_dependencies "package.json" (.content "") = .ok "" ∧
    analyze_project_dependencies "package.json" (.content "") ≠
      .ok "Error analyzing package.json." := by
  refine ⟨rfl, rfl, ?_⟩
  intro h
  rw [show analyze_project_dependencies "package.json" (.content "") =
      (.ok "" : Except PyErr String) from rfl] at h
  exact absurd (Except.ok.inj h) (by decide)

/-- Claim C3 (amended): a `package.json` whose content is nonempty and not
valid JSON makes extraction return exactly the fixed error string (the
`JSONDecodeError` is caught), and wherever such a file occurs in the
traversal the summarization of all other entries proceeds unchanged: the
entries before and after it contribute exactly their usual fragments and
directory records, with the error marker in traversal position between
them.  (An empty `package.json` instead falls through the `if content:`
guard and contributes the empty string.) -/
theorem C3_malformed_package_json_amended (c : String) (hc : c ≠ "")
    (hp : json_loads c = none) :
    analyze_project_dependencies "package.json" (.content c) =
      .ok "Error analyzing package.json." ∧
    ∀ (es1 : List (List String × FSEntry)) (p : List String)
      (rest : List (List String × FSEntry)) (d1 g1 d2 g2 : List String),
      summarizeEntries es1 = .ok (d1, g1) →
      summarizeEntries rest = .ok (d2, g2) →
      summarizeEntries
          (es1 ++ (p, .file "package.json" (.content c)) :: rest) =
        .ok (d1 ++ "Error analyzing package.json." :: d2, g1 ++ g2) := by
  have ha : analyze_project_dependencies "package.json" (.content c) =
      .ok "Error analyzing package.json." := by
    rw [analyze_package_json_eq c hc, hp]
  refine ⟨ha, ?_⟩
  intro es1 p rest d1 g1 d2 g2 h1 h2
  have hmid : summarizeEntries
      ((p, FSEntry.file "package.json" (.content c)) :: rest) =
      .ok ("Error analyzing package.json." :: d2, g2) := by
    rw [summarizeEntries, ha]
    simp only [h2]
    rfl
  rw [summarizeEntries_append es1 _, h1, hmid]

/-- Witness for C3 (amended): the malformed content `{oops` between a
`requirements.txt` sibling before it and a directory after it; both
neighbours' contributions survive around the error marker. -/
theorem C3_malformed_package_json_amended_witness :
    json_loads "\x7boops" = none ∧
    analyze_project_dependencies "package.json" (.content "\x7boops") =
      .ok "Error analyzing package.json." ∧
    summarizeEntries
        ([(["requirements.txt"],
            FSEntry.file "requirements.txt" (.content "flask"))] ++
          (["package.json"], FSEntry.file "package.json" (.content "\x7boops")) ::
          [(["sub"], FSEntry.dir "sub" [])]) =
      .ok (["Python dependencies (requirements.txt): flask.",
            "Error analyzing package.json."], ["."]) := by
  have h := C3_malformed_package_json_amended "\x7boops" (by decide) rfl
  exact ⟨rfl, h.1,
    h.2 [(["requirements.txt"],
        FSEntry.file "requirements.txt" (.content "flask"))]
      ["package.json"] [(["sub"], FSEntry.dir "sub" [])]
      ["Python dependencies (requirements.txt): flask."] [] [] ["."] rfl rfl⟩

/-- Claim C4 counterexample: a Gemfile whose content is the single line `gem`
(which starts with `gem` but has no second whitespace-separated token)
makes extraction raise an uncaught IndexError — the claim's "no error
path" is false. -/
theorem C4_counterexample :
    analyze_project_dependencies "Gemfile" (.content "gem") =
      .error .indexError :=
  rfl

/-- Claim C4 (amended): for nonempty Gemfile content, extraction succeeds exactly
when every line starting with `gem` has a second whitespace-separated
token; lines that do not start with `gem` are ignored and never cause an
error, but a `gem`-prefixed line without a second token raises IndexError. -/
theorem C4_gemfile_total_amended (c : String) (hc : c ≠ "") :
    exceptOk (analyze_project_dependencies "Gemfile" (.content c)) = true ↔
      ∀ l ∈ pySplitlines c, pyStartswith l "gem" = true →
        2 ≤ (pySplit l).length := by
  rw [analyze_gemfile_eq c hc, ← gemLines_ok_iff]
  cases gemLines (pySplitlines c) with
  | ok deps => rfl
  | error e => rfl

/-- Witness for C4 (amended): a Gemfile with one well-formed `gem` line and
one comment line analyzes without error. -/
theorem C4_gemfile_total_amended_witness :
    exceptOk (analyze_project_dependencies "Gemfile"
      (.content "gem rails\n# note")) = true :=
  (C4_gemfile_total_amended "gem rails\n# note" (by decide)).mpr (by decide)

/-- Claim-side reading of the Gemfile rule, used to exhibit where the code
deviates from it: strip one surrounding pair of quotes from the second
token of each line whose first token is the literal `gem`. -/
def stripOnePair (s : String) : String :=
  let cs := s.data
  if 2 ≤ cs.length && (cs.head? == cs.getLast?) &&
      (cs.head? == some dquoteChar || cs.head? == some squoteChar) then
    String.mk ((cs.drop 1).dropLast)
  else s

/-- Claim-side Gemfile dependency list: second token, one quote pair
stripped, of every line whose first whitespace-separated token equals
`gem`. -/
def claimedGemDeps (c : String) : List String :=
  ((pySplitlines c).filter (fun l => (pySplit l).headD "" == "gem")).map
    (fun l => stripOnePair (((pySplit l)[1]?).getD ""))

/-- Gemfile content whose second token is wrapped in two pairs of double
quotes. -/
def gemDoubleQuotedWit : String := "gem \"\"rails\"\""

/-- Claim C5 counterexample: the code keys on the prefix `gem`, not on the first
token being `gem` (so `gemspec foo` records `foo` although its first token
is not `gem`), and `strip` removes every surrounding quote, not a single
pair (so a doubly quoted name loses all its quotes); in both cases the
code's output differs from the output the claim's rule predicts. -/
theorem C5_counterexample :
    (analyze_project_dependencies "Gemfile" (.content "gemspec foo") =
        .ok "Ruby dependencies (Gemfile): foo." ∧
      "Ruby dependencies (Gemfile): foo." ≠
        "Ruby dependencies (Gemfile): " ++
          String.intercalate ", " (claimedGemDeps "gemspec foo") ++ ".") ∧
    (analyze_project_dependencies "Gemfile" (.content gemDoubleQuotedWit) =
        .ok "Ruby dependencies (Gemfile): rails." ∧
      "Ruby dependencies (Gemfile): rails." ≠
        "Ruby dependencies (Gemfile): " ++
          String.intercalate ", " (claimedGemDeps gemDoubleQuotedWit) ++ ".") :=
  ⟨⟨rfl, by decide⟩, ⟨rfl, by decide⟩⟩

/-- Claim C5 (amended): for nonempty Gemfile content in which every
`gem`-prefixed line has a second whitespace-separated token, extraction
records, for each line that starts with the three characters `gem` (a
prefix test, not a first-token test), the line's second
whitespace-separated token with all leading and trailing double quotes and
then all leading and trailing single quotes removed, in line order. -/
theorem C5_gemfile_deps_amended (c : String) (hc : c ≠ "")
    (h2 : ∀ l ∈ pySplitlines c, pyStartswith l "gem" = true →
      2 ≤ (pySplit l).length) :
    analyze_project_dependencies "Gemfile" (.content c) =
      .ok ("Ruby dependencies (Gemfile): " ++ String.intercalate ", "
        (((pySplitlines c).filter (fun l => pyStartswith l "gem")).map
          (fun l => pyStripChar (pyStripChar (((pySplit l)[1]?).getD "")
            dquoteChar) squoteChar)) ++ ".") := by
  rw [analyze_gemfile_eq c hc, gemLines_eq _ h2]

/-- Concrete Gemfile of the claim's example: `gem "rails"`, a comment line,
`gem 'pg'`. -/
def gemfileWit : String :=
  "gem \"rails\"\n# comment\ngem " ++ String.mk [squoteChar] ++ "pg" ++
    String.mk [squoteChar]

/-- Witness for C5 (amended): the claim's example Gemfile yields the
dependencies `rails` and `pg`, quotes of either style stripped. -/
theorem C5_gemfile_deps_amended_witness :
    analyze_project_dependencies "Gemfile" (.content gemfileWit) =
      .ok "Ruby dependencies (Gemfile): rails, pg." := by
  rw [C5_gemfile_deps_amended gemfileWit (by decide) (by decide)]
  rfl

/-- Claim C6: a `package.json` parsing to an object whose `dependencies` field is
an object produces exactly the `Node.js dependencies:` message listing that
object's keys in insertion (document) order; when the field is absent the
result is that of zero dependencies, not an error. -/
theorem C6_package_json_deps (c : String) (hc : c ≠ "")
    (fields ds : List (String × Json))
    (hp : json_loads c = some (.obj fields)) :
    (dictGet? fields "dependencies" = some (.obj ds) →
      analyze_project_dependencies "package.json" (.content c) =
        .ok ("Node.js dependencies: " ++
          String.intercalate ", " (ds.map (fun p => p.1)) ++ ".")) ∧
    (dictGet? fields "dependencies" = none →
      analyze_project_dependencies "package.json" (.content c) =
        .ok "Node.js dependencies: .") := by
  rw [analyze_package_json_eq c hc, hp]
  constructor
  · intro hd
    simp [pyDictGet, pyDictKeys, hd]
  · intro hd
    simp only [pyDictGet, pyDictKeys, hd, Option.getD]
    rfl

/-- Content of the C6 witness `package.json`. -/
def pkgWit : String := "\x7b\"dependencies\": \x7b\"a\": \"1.0\", \"b\": \"2.0\"\x7d\x7d"

/-- Witness for C6 at the claim's example mapping and at an empty object
(absent `dependencies` field). -/
theorem C6_package_json_deps_witness :
    analyze_project_dependencies "package.json" (.content pkgWit) =
      .ok "Node.js dependencies: a, b." ∧
    analyze_project_dependencies "package.json" (.content "\x7b\x7d") =
      .ok "Node.js dependencies: ." := by
  constructor
  · rw [(C6_package_json_deps pkgWit (by decide)
      [("dependencies", .obj [("a", .str "1.0"), ("b", .str "2.0")])]
      [("a", .str "1.0"), ("b", .str "2.0")] rfl).1 rfl]
    rfl
  · rw [(C6_package_json_deps "\x7b\x7d" (by decide) [] [] rfl).2 rfl]

/-- Claim C7 counterexample: an empty `requirements.txt` (or `Pipfile`) is
covered by the claim's universal quantifier, but the `if content:` guard
makes the code return the unlabelled empty string instead of the labelled
zero-dependency result the claim's rule describes. -/
theorem C7_counterexample :
    analyze_project_dependencies "requirements.txt" (.content "") = .ok "" ∧
    analyze_project_dependencies "requirements.txt" (.content "") ≠
      .ok "Python dependencies (requirements.txt): ." ∧
    analyze_project_dependencies "Pipfile" (.content "") = .ok "" := by
  refine ⟨rfl, ?_, rfl⟩
  intro h
  rw [show analyze_project_dependencies "requirements.txt" (.content "") =
      (.ok "" : Except PyErr String) from rfl] at h
  exact absurd (Except.ok.inj h) (by decide)

/-- Claim C7 (amended): for every `requirements.txt` or `Pipfile` whose
content is readable and nonempty, every non-empty line not starting with
`#` is taken verbatim, in line order, and the result is labelled after the
matching file name; an empty (or unreadable) file instead contributes the
empty string, with no label. -/
theorem C7_python_manifests (c : String) (hc : c ≠ "") :
    analyze_project_dependencies "requirements.txt" (.content c) =
      .ok ("Python dependencies (requirements.txt): " ++
        String.intercalate ", " ((pySplitlines c).filter
          (fun l => !l.isEmpty && !(pyStartswith l "#"))) ++ ".") ∧
    analyze_project_dependencies "Pipfile" (.content c) =
      .ok ("Python dependencies (Pipfile): " ++
        String.intercalate ", " ((pySplitlines c).filter
          (fun l => !l.isEmpty && !(pyStartswith l "#"))) ++ ".") := by
  have h := isEmpty_false_of_ne c hc
  constructor <;> simp [analyze_project_dependencies, read_file_content, h]

/-- Witness for C7 (amended): the claim's example content `flask`, an empty
line, `# note`, `requests`. -/
theorem C7_python_manifests_witness :
    analyze_project_dependencies "requirements.txt"
        (.content "flask\n\n# note\nrequests") =
      .ok "Python dependencies (requirements.txt): flask, requests." ∧
    analyze_project_dependencies "Pipfile" (.content "flask\n\n# note\nrequests") =
      .ok "Python dependencies (Pipfile): flask, requests." := by
  constructor
  · rw [(C7_python_manifests "flask\n\n# note\nrequests" (by decide)).1]
    rfl
  · rw [(C7_python_manifests "flask\n\n# note\nrequests" (by decide)).2]
    rfl

/-- Claim C8 counterexample: a file named exactly `.csproj` ends in `.csproj` but
has empty pathlib suffix, so the code does not parse it at all and returns
the empty contribution instead of collecting the `Include` value `X`. -/
theorem C8_counterexample :
    analyze_project_dependencies ".csproj"
        (.content "<Project><PackageReference Include=\"X\" /></Project>") =
      .ok "" ∧
    analyze_project_dependencies ".csproj"
        (.content "<Project><PackageReference Include=\"X\" /></Project>") ≠
      .ok "C# dependencies: X." := by
  refine ⟨rfl, ?_⟩
  intro h
  rw [show analyze_project_dependencies ".csproj"
      (.content "<Project><PackageReference Include=\"X\" /></Project>") =
      (.ok "" : Except PyErr String) from rfl] at h
  exact absurd (Except.ok.inj h) (by decide)

/-- Claim C8 (amended): for a file whose pathlib suffix is `.csproj` (it ends in
`.csproj` with a nonempty stem) and whose content is readable and nonempty,
the content is parsed as XML; on parse failure the result is exactly
`Error analyzing .csproj.`, and on success the `Include` attribute of every
`PackageReference` element strictly below the root (descendant search, not
just direct children) is collected in document order, a missing attribute
letting the KeyError escape. -/
theorem C8_csproj_amended (name c : String) (hn : pySuffix name = ".csproj")
    (hc : c ≠ "") :
    (et_fromstring c = none →
      analyze_project_dependencies name (.content c) =
        .ok "Error analyzing .csproj.") ∧
    (∀ root, et_fromstring c = some root →
      analyze_project_dependencies name (.content c) =
        match collectIncludes ((xmlDescendants root).filter
            (fun e => e.tag = "PackageReference")) with
        | .ok packages =>
          .ok ("C# dependencies: " ++ String.intercalate ", " packages ++ ".")
        | .error e => .error e) := by
  rw [analyze_csproj_eq name c hn hc]
  constructor
  · intro hp
    rw [hp]
  · intro root hp
    rw [hp]
    rfl

/-- Concrete `.csproj` content with a nested `PackageReference` for the C8
witness. -/
def csprojWit : String :=
  "<Project><ItemGroup><PackageReference Include=\"Newtonsoft.Json\" /></ItemGroup></Project>"

/-- Witness for C8 (amended): unparseable content yields the fixed error
string, and a `PackageReference` two levels below the root is found by the
descendant search. -/
theorem C8_csproj_amended_witness :
    analyze_project_dependencies "app.csproj" (.content "not xml") =
      .ok "Error analyzing .csproj." ∧
    analyze_project_dependencies "app.csproj" (.content csprojWit) =
      .ok "C# dependencies: Newtonsoft.Json." := by
  constructor
  · exact (C8_csproj_amended "app.csproj" "not xml" rfl (by decide)).1 rfl
  · rw [(C8_csproj_amended "app.csproj" csprojWit rfl (by decide)).2
      (.elem "Project" []
        [.elem "ItemGroup" []
          [.elem "PackageReference" [("Include", "Newtonsoft.Json")] []]]) rfl]
    rfl

/-- Claim C10 counterexample: the claim fails at its edges — a file named exactly
`.csproj` (empty pathlib suffix) is not analyzed at all, and a well-formed
document whose only `PackageReference` is the root element is missed by the
descendant search, so no KeyError is raised in either case. -/
theorem C10_counterexample :
    analyze_project_dependencies ".csproj"
        (.content "<Project><PackageReference /></Project>") = .ok "" ∧
    analyze_project_dependencies "app.csproj" (.content "<PackageReference />") =
      .ok "C# dependencies: ." :=
  ⟨rfl, rfl⟩

/-- Claim C10 (amended): for a file with pathlib suffix `.csproj` and nonempty
readable content parsing to a document that has, strictly below the root,
a `PackageReference` element without an `Include` attribute, extraction
raises an uncaught KeyError — it is not total on well-formed `.csproj`
inputs. -/
theorem C10_missing_include_amended (name c : String) (root : XmlElem)
    (hn : pySuffix name = ".csproj") (hc : c ≠ "")
    (hp : et_fromstring c = some root)
    (hbad : ∃ e ∈ xmlDescendants root, e.tag = "PackageReference" ∧
      e.attrib.find? (fun p => p.1 = "Include") = none) :
    analyze_project_dependencies name (.content c) =
      .error (.keyError "Include") := by
  rw [analyze_csproj_eq name c hn hc, hp]
  have hcol : collectIncludes (et_findall_desc root "PackageReference") =
      .error (.keyError "Include") := by
    apply collectIncludes_error
    rcases hbad with ⟨e, he, htag, hfind⟩
    exact ⟨e, List.mem_filter.mpr ⟨he, by simp [htag]⟩, hfind⟩
  simp only [hcol]

/-- Witness for C10 (amended): `app.csproj` containing a `PackageReference`
without `Include` below the root raises the KeyError. -/
theorem C10_missing_include_amended_witness :
    analyze_project_dependencies "app.csproj"
        (.content "<Project><PackageReference /></Project>") =
      .error (.keyError "Include") :=
  C10_missing_include_amended "app.csproj"
    "<Project><PackageReference /></Project>"
    (.elem "Project" [] [.elem "PackageReference" [] []]) rfl (by decide) rfl
    ⟨.elem "PackageReference" [] [], by simp [xmlDescendants, xmlDescList], rfl, rfl⟩
